import Mathlib

/-!
Shallow embedding of the output-parsing core of the aiida-akaikkr plugin,
namely the parse method of the specx parser class in
src/aiida_akaikkr/parsers/akaikkr_parser.py, together with the core-level
dictionary construction of get_basic_properties in the same file.

Modelling conventions.
The job descriptor fields consumed by parse (output_filename, input_filename,
retrieve_potential, go, magtype) and the set of retrieved file names are
collected in ParseInput.  Comparisons of an input node against a raw string
(lines 131 and 162 of the source) are modelled as comparisons of the
underlying string value, which is how the orchestration framework defines
equality on its basic data types.

Calls into the external pyakaikkr, pymatgen and ase libraries are oracles:
PyEnv records, for the one retrieved folder under consideration, whether each
such call raises the exception that the source anticipates
(KKRValueAquisitionError for the property getters, ValueError for the
ase conversion) and, for the Jij table, the column names of the dataframe the
library returns.  External calls whose failure the source does not anticipate
are modelled as succeeding.

Python name-binding is modelled explicitly because the source depends on it:
inside parse, the names job and KKRValueAquisitionError are function-local
(job is assigned on lines 165, 184, 197 and 211; KKRValueAquisitionError is
bound by the import statement on line 182, which only executes in the dos
branch).  Evaluating either name before it is bound raises UnboundLocalError,
a subclass of NameError; in particular an except clause whose handler class
name is an unbound local raises UnboundLocalError at match time instead of
handling the pending exception.  The state St threads the two binding flags
through the straight-line translation of the method body.

Opening a file that is absent from the retrieved folder raises
FileNotFoundError; the aiida major version is taken to be 2, so a run that
reaches the end of the method returns ExitCode 0 (Outcome.finished).
-/

namespace AkaiKKR

/-- Exit-code labels that the parse method names via self.exit_codes.
Their numeric declarations live in the calculation-class boilerplate, which
the specification places out of scope; only their identity matters here. -/
inductive ExitKind where
  | ERROR_OUTPUT_STDOUT_MISSING
  | ERROR_OUTPUT_STDIN_MISSING
  | ERROR_OUTPUT_POTENTIAL_MISSING
  | ERROR_OUTPUT_SPC_MISSING
  | ERROR_OUTPUT_STDOUT_PARSE
  | ERROR_UNEXPECTED_PARSER_EXCEPTION
  | ERROR_OUTPUT_DOS_PARSE
  | ERROR_OUTPUT_PDOS_PARSE
  | ERROR_OUTPUT_JIJ_PARSE
  | ERROR_OUTPUT_CURIE_TEMPERATURE_PARSE
  deriving DecidableEq, Repr

/-- Unhandled Python exceptions that the parse method can raise. -/
inductive PyError where
  | unboundLocalError
  | fileNotFoundError
  deriving DecidableEq, Repr

/-- How a call of parse ends: a normal return (ExitCode 0), an early return
of a named exit code, or an unhandled exception escaping the method. -/
inductive Outcome where
  | finished
  | exit (k : ExitKind)
  | raised (e : PyError)
  deriving DecidableEq, Repr

/-- An output slot attached via self.out: the slot name, plus the column
names when the slot holds a column-oriented table (the Jij dictionary built
on lines 216-219); the column list is empty for every other slot. -/
abbrev Slot := String × List String

/-- The job descriptor fields read by parse and the names of the files in
the retrieved folder. -/
structure ParseInput where
  output_filename : String
  input_filename : String
  retrieve_potential : Bool
  go : String
  magtype : String
  files_retrieved : List String
  deriving DecidableEq, Repr

/-- Oracle for the external library calls made on one retrieved folder:
which anticipated exceptions are raised, and the columns of the Jij table. -/
structure PyEnv where
  basic_props_raises : Bool
  ase_raises : Bool
  dos_raises : Bool
  pdos_raises : Bool
  jij_raises : Bool
  jij_columns : List String
  curie_raises : Bool
  deriving DecidableEq, Repr

/-- Does the character list start with the given pattern list? -/
def listStartsWith : List Char → List Char → Bool
  | _, [] => true
  | [], _ :: _ => false
  | a :: as, b :: bs => a = b && listStartsWith as bs

/-- Does the pattern occur as a contiguous sublist of the character list? -/
def hasSubList (pat : List Char) : List Char → Bool
  | [] => pat.isEmpty
  | c :: cs => listStartsWith (c :: cs) pat || hasSubList pat cs

/-- Python substring membership, pat in s. -/
def strContains (s pat : String) : Bool :=
  hasSubList pat.data s.data

/-- Python string slicing test s[:n] == pat with pat of length n. -/
def strStartsWith (s pat : String) : Bool :=
  listStartsWith s.data pat.data

/-- Lines 130-141 of the source: the spectral-file presence checks run for a
run whose go string contains spc.  Note that the non-nmag branch tests the
file pot.dat_up.spc twice and never tests pot.dat_dn.spc; the embedding
reproduces the source verbatim. -/
def spc_file_check (inp : ParseInput) : Option ExitKind :=
  if inp.magtype = "nmag" then
    if "pot.dat_up.spc" ∉ inp.files_retrieved then some .ERROR_OUTPUT_SPC_MISSING
    else none
  else
    if "pot.dat_up.spc" ∉ inp.files_retrieved then some .ERROR_OUTPUT_SPC_MISSING
    else if "pot.dat_up.spc" ∉ inp.files_retrieved then some .ERROR_OUTPUT_SPC_MISSING
    else none

/-- Lines 115-145 of the source: the completeness check on the retrieved
folder, returning the exit kind of the first early return taken, or none
when control falls through to the extraction phase. -/
def completeness_check (inp : ParseInput) : Option ExitKind :=
  if inp.output_filename ∉ inp.files_retrieved then some .ERROR_OUTPUT_STDOUT_MISSING
  else if inp.input_filename ∉ inp.files_retrieved then some .ERROR_OUTPUT_STDIN_MISSING
  else if inp.retrieve_potential = true ∧ "pot.dat" ∉ inp.files_retrieved then
    some .ERROR_OUTPUT_POTENTIAL_MISSING
  else if strContains inp.go "spc" = true then
    match spc_file_check inp with
    | some k => some k
    | none =>
      if "klabel.json" ∉ inp.files_retrieved then some .ERROR_OUTPUT_SPC_MISSING
      else none
  else none

/-- Mutable local state of the straight-line translation of parse: the output
slots attached so far, whether the local variable job has been assigned, and
whether the local name KKRValueAquisitionError has been bound. -/
structure St where
  outs : List Slot
  jobBound : Bool
  kkrBound : Bool
  deriving DecidableEq, Repr

/-- Result of one block of the method body: either control continues with an
updated state, or the method stops (early return or unhandled exception) with
the slots attached up to that point. -/
inductive Step where
  | cont (s : St)
  | halt (outs : List Slot) (oc : Outcome)
  deriving DecidableEq, Repr

/-- Sequencing of blocks: a halt propagates, a cont feeds the next block. -/
def Step.andThen (r : Step) (f : St → Step) : Step :=
  match r with
  | .cont s => f s
  | .halt o oc => .halt o oc

/-- The slots attached when the step ends or hands over. -/
def Step.outsOf : Step → List Slot
  | .cont s => s.outs
  | .halt o _ => o

/-- The outcome of a completed run: a halt carries its own outcome, a cont
that survives the whole chain means the method returned ExitCode 0. -/
def Step.outcomeOf : Step → Outcome
  | .cont _ => .finished
  | .halt _ oc => oc

/-- Lines 147-151: when retrieve_potential is set, open pot.dat and attach
the potential slot.  The open raises if the file is absent. -/
def potential_block (inp : ParseInput) (s : St) : Step :=
  if inp.retrieve_potential then
    if "pot.dat" ∈ inp.files_retrieved then
      .cont { s with outs := s.outs ++ [("potential", [])] }
    else .halt s.outs (.raised .fileNotFoundError)
  else .cont s

/-- Lines 153-160: run get_basic_properties on the transcript under a
try/except whose handler class, KKRValueAquisitionError, is a function-local
name; if the call raises while that name is still unbound, matching the
handler raises UnboundLocalError instead of returning the stdout-parse exit
code.  On success the results slot is attached. -/
def results_block (py : PyEnv) (s : St) : Step :=
  if py.basic_props_raises then
    if s.kkrBound then .halt s.outs (.exit .ERROR_OUTPUT_STDOUT_PARSE)
    else .halt s.outs (.raised .unboundLocalError)
  else .cont { s with outs := s.outs ++ [("results", [])] }

/-- Lines 162-179: for magtype different from lmd, assign job (line 165),
build the pymatgen structure and convert it to ase; a ValueError from the
conversion is logged and turns into an early return of the
unexpected-exception exit code, otherwise the structure slot is attached.
For magtype lmd the whole block is skipped. -/
def structure_block (inp : ParseInput) (py : PyEnv) (s : St) : Step :=
  if inp.magtype ≠ "lmd" then
    if py.ase_raises then
      .halt s.outs (.exit .ERROR_UNEXPECTED_PARSER_EXCEPTION)
    else .cont { s with outs := s.outs ++ [("structure", [])], jobBound := true }
  else .cont s

/-- Lines 181-207: the dos branch.  Entering it executes the import that
binds KKRValueAquisitionError (line 182) and assigns job (lines 184, 197);
get_dos and get_pdos failures return the dos-parse and pdos-parse exit kinds,
successes attach the dos and pdos slots. -/
def dos_block (inp : ParseInput) (py : PyEnv) (s : St) : Step :=
  if inp.go = "dos" then
    if py.dos_raises then .halt s.outs (.exit .ERROR_OUTPUT_DOS_PARSE)
    else if py.pdos_raises then
      .halt (s.outs ++ [("dos", [])]) (.exit .ERROR_OUTPUT_PDOS_PARSE)
    else .cont ⟨s.outs ++ [("dos", []), ("pdos", [])], true, true⟩
  else .cont s

/-- Lines 209-220: the Jij branch, entered when go starts with j.  It assigns
job (line 211); a get_jij_as_dataframe failure is caught by an except clause
whose handler name KKRValueAquisitionError is unbound unless the dos branch
ran, in which case UnboundLocalError escapes instead of the jij-parse exit
code.  On success the Jij slot is attached with the dataframe column names. -/
def jij_block (inp : ParseInput) (py : PyEnv) (s : St) : Step :=
  if strStartsWith inp.go "j" then
    if py.jij_raises then
      if s.kkrBound then .halt s.outs (.exit .ERROR_OUTPUT_JIJ_PARSE)
      else .halt s.outs (.raised .unboundLocalError)
    else .cont ⟨s.outs ++ [("Jij", py.jij_columns)], true, s.kkrBound⟩
  else .cont s

/-- Lines 222-228: the Curie-temperature branch, entered when go starts with
j or equals tc.  Line 225 evaluates the local variable job, raising
UnboundLocalError when no earlier block assigned it; a
get_curie_temperature failure hits the same unbound handler-name problem as
the Jij branch.  On success the Tc slot is attached. -/
def curie_block (inp : ParseInput) (py : PyEnv) (s : St) : Step :=
  if strStartsWith inp.go "j" ∨ inp.go = "tc" then
    if s.jobBound = false then .halt s.outs (.raised .unboundLocalError)
    else if py.curie_raises then
      if s.kkrBound then .halt s.outs (.exit .ERROR_OUTPUT_CURIE_TEMPERATURE_PARSE)
      else .halt s.outs (.raised .unboundLocalError)
    else .cont { s with outs := s.outs ++ [("Tc", [])] }
  else .cont s

/-- Lines 237-242: open each spin-resolved spectral file in turn and attach
its slot; opening a file that is absent raises FileNotFoundError. -/
def awk_loop (files : List String) : List (String × String) → List Slot →
    List Slot × Option PyError
  | [], outs => (outs, none)
  | (port, sfx) :: rest, outs =>
    if String.intercalate "_" ["pot.dat", sfx] ∈ files then
      awk_loop files rest (outs ++ [(port, [])])
    else (outs, some .fileNotFoundError)

/-- Lines 231-236: the output-port and file-suffix lists of the spc branch,
depending on the magnetic type. -/
def spc_pairs (magtype : String) : List (String × String) :=
  if magtype = "nmag" then [("Awk_up", "up.spc")]
  else [("Awk_up", "up.spc"), ("Awk_dn", "dn.spc")]

/-- Lines 230-247: the spc branch, entered when go starts with spc.  The
port and file-postfix lists depend on magtype; each spectral file is opened
and attached, then klabel.json is opened, json-decoded and attached. -/
def spc_block (inp : ParseInput) (s : St) : Step :=
  if strStartsWith inp.go "spc" then
    match awk_loop inp.files_retrieved (spc_pairs inp.magtype) s.outs with
    | (outs, some e) => .halt outs (.raised e)
    | (outs, none) =>
      if "klabel.json" ∈ inp.files_retrieved then
        .cont { s with outs := outs ++ [("klabel", [])] }
      else .halt outs (.raised .fileNotFoundError)
  else .cont s

/-- The extraction phase of parse: the blocks of lines 147-247 in source
order, starting from no attached slots and both local names unbound. -/
def run_blocks (inp : ParseInput) (py : PyEnv) : Step :=
  ((((((potential_block inp ⟨[], false, false⟩).andThen
      (results_block py)).andThen
      (structure_block inp py)).andThen
      (dos_block inp py)).andThen
      (jij_block inp py)).andThen
      (curie_block inp py)).andThen
      (spc_block inp)

/-- The observable result of one call of parse. -/
structure ParseResult where
  outputs : List Slot
  outcome : Outcome
  deriving DecidableEq, Repr

/-- The parse method of the specx parser class (lines 100-250 of the
source): the completeness check followed, when it passes, by the extraction
blocks. -/
def parse (inp : ParseInput) (py : PyEnv) : ParseResult :=
  match completeness_check inp with
  | some k => ⟨[], .exit k⟩
  | none => ⟨(run_blocks inp py).outsOf, (run_blocks inp py).outcomeOf⟩

/-- Line 67 of the source: the fixed list of core-state labels passed to
get_core_level by get_basic_properties. -/
def core_names : List String :=
  ["1s", "2s", "2p", "3s", "3d", "4s", "4p", "4d", "4f"]

/-- Lines 68-75 of the source: zip the label list with the presence flags and
energies returned by get_core_level and map each label to its energy when the
flag is set and to the explicit absent marker none otherwise.  The energy
type is abstract since only the shape of the mapping matters. -/
def core_level_of {α : Type} (core_exist : List Bool) (vals : List α) :
    List (String × Option α) :=
  (core_names.zip (core_exist.zip vals)).map
    (fun p => (p.1, if p.2.1 then some p.2.2 else none))

/-- Both magtype branches of the spectral-file check require exactly the
presence of pot.dat_up.spc. -/
theorem spc_file_check_eq_none_iff (inp : ParseInput) :
    spc_file_check inp = none ↔ "pot.dat_up.spc" ∈ inp.files_retrieved := by
  unfold spc_file_check
  split_ifs <;> simp_all

/-- The completeness check passes exactly when every required file is among
the retrieved names; which files are required depends only on the declared
filenames, the retrieve_potential option and the go mode string. -/
theorem completeness_ok_iff (inp : ParseInput) :
    completeness_check inp = none ↔
      (inp.output_filename ∈ inp.files_retrieved ∧
       inp.input_filename ∈ inp.files_retrieved ∧
       (inp.retrieve_potential = true → "pot.dat" ∈ inp.files_retrieved) ∧
       (strContains inp.go "spc" = true →
         "pot.dat_up.spc" ∈ inp.files_retrieved ∧
           "klabel.json" ∈ inp.files_retrieved)) := by
  have hspc := spc_file_check_eq_none_iff inp
  cases h : spc_file_check inp with
  | none =>
    rw [h] at hspc
    simp only [completeness_check, h]
    split_ifs <;> simp_all
  | some k =>
    rw [h] at hspc
    simp only [completeness_check, h]
    split_ifs <;> simp_all

/-- A step extends the incoming state when its slots are the incoming slots
followed by new slots whose names all come from the allowed list. -/
def Step.Extends (r : Step) (s : St) (allowed : List String) : Prop :=
  ∃ t, r.outsOf = s.outs ++ t ∧ ∀ x ∈ t, x.1 ∈ allowed

/-- Weakening the allowed-name list preserves extension. -/
theorem extends_weaken {r : Step} {s : St} {A B : List String}
    (h : r.Extends s A) (hsub : ∀ x ∈ A, x ∈ B) : r.Extends s B := by
  obtain ⟨t, ht, hm⟩ := h
  exact ⟨t, ht, fun x hx => hsub _ (hm x hx)⟩

/-- Sequencing two extending steps extends with the union of their names. -/
theorem extends_andThen {r : Step} {s : St} {A B : List String} {f : St → Step}
    (hr : r.Extends s A) (hf : ∀ s', (f s').Extends s' B) :
    (r.andThen f).Extends s (A ++ B) := by
  cases r with
  | halt o oc =>
    obtain ⟨t, ht, hm⟩ := hr
    exact ⟨t, ht, fun x hx => List.mem_append_left _ (hm x hx)⟩
  | cont s' =>
    obtain ⟨t, ht, hm⟩ := hr
    obtain ⟨u, hu, hmu⟩ := hf s'
    refine ⟨t ++ u, ?_, ?_⟩
    · show (f s').outsOf = _
      rw [hu]
      rw [show s'.outs = s.outs ++ t from ht]
      rw [List.append_assoc]
    · intro x hx
      rcases List.mem_append.mp hx with h | h
      · exact List.mem_append_left _ (hm x h)
      · exact List.mem_append_right _ (hmu x h)

theorem potential_block_extends (inp : ParseInput) (s : St) :
    (potential_block inp s).Extends s ["potential"] := by
  unfold potential_block
  split_ifs with h1 h2
  · exact ⟨[("potential", [])], rfl, by simp⟩
  · exact ⟨[], by simp [Step.outsOf], by simp⟩
  · exact ⟨[], by simp [Step.outsOf], by simp⟩

theorem results_block_extends (py : PyEnv) (s : St) :
    (results_block py s).Extends s ["results"] := by
  unfold results_block
  split_ifs with h1 h2
  · exact ⟨[], by simp [Step.outsOf], by simp⟩
  · exact ⟨[], by simp [Step.outsOf], by simp⟩
  · exact ⟨[("results", [])], rfl, by simp⟩

theorem structure_block_extends (inp : ParseInput) (py : PyEnv) (s : St) :
    (structure_block inp py s).Extends s ["structure"] := by
  unfold structure_block
  split_ifs with h1 h2
  · exact ⟨[], by simp [Step.outsOf], by simp⟩
  · exact ⟨[("structure", [])], rfl, by simp⟩
  · exact ⟨[], by simp [Step.outsOf], by simp⟩

/-- For a disordered-local-moment run the structure block is a no-op. -/
theorem structure_block_lmd {inp : ParseInput} (py : PyEnv) (s : St)
    (h : inp.magtype = "lmd") : structure_block inp py s = .cont s := by
  simp [structure_block, h]

theorem structure_block_extends_lmd {inp : ParseInput} (py : PyEnv)
    (h : inp.magtype = "lmd") (s : St) :
    (structure_block inp py s).Extends s [] := by
  rw [structure_block_lmd py s h]
  exact ⟨[], by simp [Step.outsOf], by simp⟩

theorem dos_block_extends (inp : ParseInput) (py : PyEnv) (s : St) :
    (dos_block inp py s).Extends s ["dos", "pdos"] := by
  unfold dos_block
  split_ifs with h1 h2 h3
  · exact ⟨[], by simp [Step.outsOf], by simp⟩
  · exact ⟨[("dos", [])], by simp [Step.outsOf], by simp⟩
  · exact ⟨[("dos", []), ("pdos", [])], by simp [Step.outsOf], by simp⟩
  · exact ⟨[], by simp [Step.outsOf], by simp⟩

theorem jij_block_extends (inp : ParseInput) (py : PyEnv) (s : St) :
    (jij_block inp py s).Extends s ["Jij"] := by
  unfold jij_block
  split_ifs with h1 h2 h3
  · exact ⟨[], by simp [Step.outsOf], by simp⟩
  · exact ⟨[], by simp [Step.outsOf], by simp⟩
  · exact ⟨[("Jij", py.jij_columns)], by simp [Step.outsOf], by simp⟩
  · exact ⟨[], by simp [Step.outsOf], by simp⟩

theorem curie_block_extends (inp : ParseInput) (py : PyEnv) (s : St) :
    (curie_block inp py s).Extends s ["Tc"] := by
  unfold curie_block
  split_ifs with h1 h2 h3 h4
  · exact ⟨[], by simp [Step.outsOf], by simp⟩
  · exact ⟨[], by simp [Step.outsOf], by simp⟩
  · exact ⟨[], by simp [Step.outsOf], by simp⟩
  · exact ⟨[("Tc", [])], rfl, by simp⟩
  · exact ⟨[], by simp [Step.outsOf], by simp⟩

theorem awk_loop_extends (files : List String) (ps : List (String × String)) :
    ∀ outs : List Slot,
      ∃ t, (awk_loop files ps outs).1 = outs ++ t ∧
        ∀ x ∈ t, x.1 ∈ ps.map Prod.fst := by
  induction ps with
  | nil => exact fun outs => ⟨[], by simp [awk_loop], by simp⟩
  | cons p rest ih =>
    intro outs
    obtain ⟨port, sfx⟩ := p
    by_cases h : String.intercalate "_" ["pot.dat", sfx] ∈ files
    · obtain ⟨t, ht, hm⟩ := ih (outs ++ [(port, [])])
      refine ⟨(port, []) :: t, ?_, ?_⟩
      · simp only [awk_loop, if_pos h, ht, List.append_assoc, List.singleton_append]
      · intro x hx
        rcases List.mem_cons.mp hx with h' | h'
        · subst h'; simp
        · simpa using Or.inr (by simpa using hm x h')
    · exact ⟨[], by simp [awk_loop, h], by simp⟩

theorem spc_block_extends (inp : ParseInput) (s : St) :
    (spc_block inp s).Extends s ["Awk_up", "Awk_dn", "klabel"] := by
  have hsub : ∀ x ∈ (spc_pairs inp.magtype).map Prod.fst,
      x ∈ ["Awk_up", "Awk_dn", "klabel"] := by
    unfold spc_pairs; split_ifs <;> simp
  obtain ⟨t, ht, hm⟩ := awk_loop_extends inp.files_retrieved (spc_pairs inp.magtype) s.outs
  unfold spc_block
  by_cases h1 : strStartsWith inp.go "spc" = true
  · rw [if_pos h1]
    rcases hres : awk_loop inp.files_retrieved (spc_pairs inp.magtype) s.outs with ⟨outs', err⟩
    rw [hres] at ht
    dsimp only at ht
    cases err with
    | none =>
      dsimp only
      split_ifs with h2
      · refine ⟨t ++ [("klabel", [])], ?_, ?_⟩
        · simp [Step.outsOf, ht]
        · intro x hx
          rcases List.mem_append.mp hx with h' | h'
          · exact hsub _ (hm x h')
          · simp at h'; subst h'; simp
      · exact ⟨t, by simp [Step.outsOf, ht], fun x hx => hsub _ (hm x hx)⟩
    | some e =>
      exact ⟨t, by simp [Step.outsOf, ht], fun x hx => hsub _ (hm x hx)⟩
  · rw [if_neg h1]
    exact ⟨[], by simp [Step.outsOf], by simp⟩

/-- When the completeness check passes, the result of parse is read off the
block chain. -/
theorem parse_eq_of_check_ok {inp : ParseInput} {py : PyEnv}
    (h : completeness_check inp = none) :
    parse inp py = ⟨(run_blocks inp py).outsOf, (run_blocks inp py).outcomeOf⟩ := by
  simp [parse, h]

/-- The chain of extraction blocks only ever appends slots whose names come
from the allowed list; the structure slot name is accounted by the list S
supplied for the structure block. -/
theorem run_blocks_extends_gen (inp : ParseInput) (py : PyEnv) (S A : List String)
    (hS : ∀ s, (structure_block inp py s).Extends s S)
    (hA : ∀ x ∈ (((((["potential"] ++ ["results"]) ++ S) ++ ["dos", "pdos"]) ++
        ["Jij"]) ++ ["Tc"]) ++ ["Awk_up", "Awk_dn", "klabel"], x ∈ A) :
    (run_blocks inp py).Extends ⟨[], false, false⟩ A := by
  unfold run_blocks
  exact extends_weaken
    (extends_andThen (extends_andThen (extends_andThen (extends_andThen (extends_andThen
      (extends_andThen (potential_block_extends inp _) (results_block_extends py))
        hS) (dos_block_extends inp py)) (jij_block_extends inp py))
        (curie_block_extends inp py)) (spc_block_extends inp)) hA

/-- C1: on a retrieved folder that passes the completeness check but whose
transcript makes get_basic_properties raise, parse does not return the
stdout-parse exit kind: the except clause on line 158 evaluates the unbound
local name KKRValueAquisitionError and the method escapes with
UnboundLocalError; the results slot is indeed never attached. -/
theorem stdout_parse_failure_crashes_unbound :
    parse ⟨"go.out", "go.in", false, "go", "mag", ["go.out", "go.in"]⟩
        ⟨true, false, false, false, false, [], false⟩ =
      ⟨[], .raised .unboundLocalError⟩ ∧
    "results" ∉ (parse ⟨"go.out", "go.in", false, "go", "mag", ["go.out", "go.in"]⟩
        ⟨true, false, false, false, false, [], false⟩).outputs.map Prod.fst :=
  ⟨by decide, by decide⟩

/-- C2: for a spc-mode run with a magnetic (non-nmag) magtype, a folder that
lacks the down-spin spectral file pot.dat_dn.spc still passes the
completeness check, because lines 136-141 test pot.dat_up.spc twice; the
later open of the down-spin file on line 239 then raises FileNotFoundError. -/
theorem dn_spc_never_checked :
    completeness_check ⟨"go.out", "go.in", false, "spc31", "mag",
        ["go.out", "go.in", "pot.dat_up.spc", "klabel.json"]⟩ = none ∧
    "pot.dat_dn.spc" ∉
      (["go.out", "go.in", "pot.dat_up.spc", "klabel.json"] : List String) ∧
    parse ⟨"go.out", "go.in", false, "spc31", "mag",
        ["go.out", "go.in", "pot.dat_up.spc", "klabel.json"]⟩
        ⟨false, false, false, false, false, [], false⟩ =
      ⟨[("results", []), ("structure", []), ("Awk_up", [])], .raised .fileNotFoundError⟩ :=
  ⟨by decide, by decide, by decide⟩

/-- C3 counterexample: the kind returned for a folder missing only
klabel.json is the same ERROR_OUTPUT_SPC_MISSING returned for a folder
missing only the spectral file, so the two situations are indistinguishable
to the caller. -/
theorem klabel_missing_same_kind_as_spc :
    completeness_check ⟨"go.out", "go.in", false, "spc31", "nmag",
        ["go.out", "go.in", "pot.dat_up.spc"]⟩ = some .ERROR_OUTPUT_SPC_MISSING ∧
    completeness_check ⟨"go.out", "go.in", false, "spc31", "nmag",
        ["go.out", "go.in", "klabel.json"]⟩ = some .ERROR_OUTPUT_SPC_MISSING :=
  ⟨by decide, by decide⟩

/-- C3 as amended: for every spc-mode run whose folder contains all other
required files but not klabel.json, the completeness check returns the
spc-missing kind ERROR_OUTPUT_SPC_MISSING, not a dedicated klabel kind. -/
theorem klabel_missing_reports_spc_kind (inp : ParseInput)
    (hgo : strContains inp.go "spc" = true)
    (hout : inp.output_filename ∈ inp.files_retrieved)
    (hin : inp.input_filename ∈ inp.files_retrieved)
    (hpot : inp.retrieve_potential = true → "pot.dat" ∈ inp.files_retrieved)
    (hup : "pot.dat_up.spc" ∈ inp.files_retrieved)
    (hkl : "klabel.json" ∉ inp.files_retrieved) :
    completeness_check inp = some .ERROR_OUTPUT_SPC_MISSING := by
  have hspc : spc_file_check inp = none := (spc_file_check_eq_none_iff inp).mpr hup
  have hp3 : ¬(inp.retrieve_potential = true ∧ "pot.dat" ∉ inp.files_retrieved) :=
    fun h => h.2 (hpot h.1)
  simp [completeness_check, hout, hin, hp3, hgo, hspc, hkl]

theorem klabel_missing_reports_spc_kind_witness :
    strContains "spc31" "spc" = true ∧
    completeness_check ⟨"go.out", "go.in", false, "spc31", "nmag",
        ["go.out", "go.in", "pot.dat_up.spc"]⟩ = some .ERROR_OUTPUT_SPC_MISSING :=
  ⟨by decide, klabel_missing_reports_spc_kind _ (by decide) (by decide) (by decide)
    (by decide) (by decide) (by decide)⟩

/-- C4 counterexample: on a non-lmd run whose ase conversion raises, parse
returns the unexpected-exception exit kind, so the overall extraction fails
rather than skipping benignly. -/
theorem ase_failure_not_benign :
    (parse ⟨"go.out", "go.in", false, "go", "mag", ["go.out", "go.in"]⟩
        ⟨false, true, false, false, false, [], false⟩).outcome =
      .exit .ERROR_UNEXPECTED_PARSER_EXCEPTION ∧
    (parse ⟨"go.out", "go.in", false, "go", "mag", ["go.out", "go.in"]⟩
        ⟨false, true, false, false, false, [], false⟩).outcome ≠ .finished :=
  ⟨by decide, by decide⟩

/-- C4 as amended: for every non-lmd run that passes the completeness check
and whose basic-property extraction succeeds, a ValueError from the ase
conversion is logged and makes parse return the unexpected-exception exit
kind ERROR_UNEXPECTED_PARSER_EXCEPTION; the structure slot is absent but the
whole extraction fails rather than continuing. -/
theorem ase_failure_aborts_with_unexpected (inp : ParseInput) (py : PyEnv)
    (hok : completeness_check inp = none) (hmag : inp.magtype ≠ "lmd")
    (hbasic : py.basic_props_raises = false) (hase : py.ase_raises = true) :
    (parse inp py).outcome = .exit .ERROR_UNEXPECTED_PARSER_EXCEPTION ∧
      "structure" ∉ (parse inp py).outputs.map Prod.fst := by
  have hpot := ((completeness_ok_iff inp).mp hok).2.2.1
  rw [parse_eq_of_check_ok hok]
  unfold run_blocks
  cases hrp : inp.retrieve_potential with
  | false =>
    simp [potential_block, hrp, results_block, hbasic, structure_block, hmag, hase,
      Step.andThen, Step.outsOf, Step.outcomeOf]
  | true =>
    simp [potential_block, hrp, hpot hrp, results_block, hbasic, structure_block,
      hmag, hase, Step.andThen, Step.outsOf, Step.outcomeOf]

theorem ase_failure_aborts_with_unexpected_witness :
    completeness_check ⟨"go.out", "go.in", false, "go", "mag", ["go.out", "go.in"]⟩ = none ∧
    ((parse ⟨"go.out", "go.in", false, "go", "mag", ["go.out", "go.in"]⟩
        ⟨false, true, false, false, false, [], false⟩).outcome =
        .exit .ERROR_UNEXPECTED_PARSER_EXCEPTION ∧
      "structure" ∉ (parse ⟨"go.out", "go.in", false, "go", "mag", ["go.out", "go.in"]⟩
          ⟨false, true, false, false, false, [], false⟩).outputs.map Prod.fst) :=
  ⟨by decide, ase_failure_aborts_with_unexpected _ _ (by decide) (by decide) rfl rfl⟩

/-- C5: on a j-mode run whose Jij table is malformed, parse does not return
the jij-parse exit kind: the handler name on line 214 is an unbound local
(the import that binds it only runs in the dos branch), so the method escapes
with UnboundLocalError; on a well-formed table the Jij slot is attached with
exactly the columns of the dataframe. -/
theorem jij_parse_failure_crashes_unbound :
    parse ⟨"go.out", "go.in", false, "j3.0", "mag", ["go.out", "go.in"]⟩
        ⟨false, false, false, false, true, [], false⟩ =
      ⟨[("results", []), ("structure", [])], .raised .unboundLocalError⟩ ∧
    ("Jij", ["pair", "distance", "J_ij"]) ∈
      (parse ⟨"go.out", "go.in", false, "j3.0", "mag", ["go.out", "go.in"]⟩
        ⟨false, false, false, false, false, ["pair", "distance", "J_ij"], false⟩).outputs :=
  ⟨by decide, by decide⟩

/-- C6: for every run whose magtype is the disordered-local-moment variant
lmd, the structure slot is never attached, whatever the mode, the folder
contents and the behaviour of the external libraries. -/
theorem lmd_structure_slot_absent (inp : ParseInput) (py : PyEnv)
    (h : inp.magtype = "lmd") :
    "structure" ∉ (parse inp py).outputs.map Prod.fst := by
  cases hc : completeness_check inp with
  | some k => simp [parse, hc]
  | none =>
    rw [parse_eq_of_check_ok hc]
    obtain ⟨t, ht, hm⟩ := run_blocks_extends_gen inp py []
      ["potential", "results", "dos", "pdos", "Jij", "Tc", "Awk_up", "Awk_dn", "klabel"]
      (structure_block_extends_lmd py h) (by decide)
    intro hcontra
    simp only [List.mem_map] at hcontra
    obtain ⟨x, hx, hx1⟩ := hcontra
    rw [ht] at hx
    simp only [List.nil_append] at hx
    have hmem := hm x hx
    rw [hx1] at hmem
    exact absurd hmem (by decide)

theorem lmd_structure_slot_absent_witness :
    (ParseInput.mk "go.out" "go.in" false "go" "lmd" ["go.out", "go.in"]).magtype = "lmd" ∧
    "structure" ∉ (parse (ParseInput.mk "go.out" "go.in" false "go" "lmd" ["go.out", "go.in"])
        ⟨false, false, false, false, false, [], false⟩).outputs.map Prod.fst :=
  ⟨rfl, lmd_structure_slot_absent _ _ rfl⟩

/-- C7: for presence flags and energies of each of the nine core-state
labels, the dictionary built on lines 69-75 keeps every label of the fixed
list, mapping it to its energy when the flag is set and to the explicit
absent marker otherwise; no label is dropped. -/
theorem core_level_maps_every_label {α : Type}
    (e1 e2 e3 e4 e5 e6 e7 e8 e9 : Bool) (v1 v2 v3 v4 v5 v6 v7 v8 v9 : α) :
    (core_level_of [e1, e2, e3, e4, e5, e6, e7, e8, e9]
        [v1, v2, v3, v4, v5, v6, v7, v8, v9]).map Prod.fst = core_names ∧
    core_level_of [e1, e2, e3, e4, e5, e6, e7, e8, e9]
        [v1, v2, v3, v4, v5, v6, v7, v8, v9] =
      [("1s", if e1 then some v1 else none), ("2s", if e2 then some v2 else none),
       ("2p", if e3 then some v3 else none), ("3s", if e4 then some v4 else none),
       ("3d", if e5 then some v5 else none), ("4s", if e6 then some v6 else none),
       ("4p", if e7 then some v7 else none), ("4d", if e8 then some v8 else none),
       ("4f", if e9 then some v9 else none)] :=
  ⟨rfl, rfl⟩

/-- C8: the completeness check is monotone in the retrieved file set: with
the same filenames, options and mode, enlarging the file set preserves a
passing check. -/
theorem completeness_check_monotone (inp : ParseInput) (B : List String)
    (hsub : ∀ x ∈ inp.files_retrieved, x ∈ B)
    (hok : completeness_check inp = none) :
    completeness_check ⟨inp.output_filename, inp.input_filename,
      inp.retrieve_potential, inp.go, inp.magtype, B⟩ = none := by
  rw [completeness_ok_iff] at hok ⊢
  obtain ⟨ho, hi, hp, hs⟩ := hok
  exact ⟨hsub _ ho, hsub _ hi, fun hr => hsub _ (hp hr),
    fun hg => ⟨hsub _ (hs hg).1, hsub _ (hs hg).2⟩⟩

theorem completeness_check_monotone_witness :
    (∀ x ∈ (["go.out", "go.in"] : List String),
        x ∈ (["go.out", "go.in", "pot.dat", "extra.txt"] : List String)) ∧
    completeness_check ⟨"go.out", "go.in", false, "go", "mag", ["go.out", "go.in"]⟩ = none ∧
    completeness_check ⟨"go.out", "go.in", false, "go", "mag",
        ["go.out", "go.in", "pot.dat", "extra.txt"]⟩ = none :=
  ⟨by decide, by decide,
    completeness_check_monotone ⟨"go.out", "go.in", false, "go", "mag", ["go.out", "go.in"]⟩
      ["go.out", "go.in", "pot.dat", "extra.txt"] (by decide) (by decide)⟩

/-- C9: for every run with go tc and magtype lmd that passes the completeness
check and whose basic-property extraction succeeds, line 225 evaluates the
local variable job that no earlier branch assigned, so parse escapes with
UnboundLocalError (a NameError subclass), returns no named exit kind and
never attaches the Tc slot. -/
theorem tc_lmd_raises_name_error (inp : ParseInput) (py : PyEnv)
    (hgo : inp.go = "tc") (hmag : inp.magtype = "lmd")
    (hok : completeness_check inp = none) (hbasic : py.basic_props_raises = false) :
    (parse inp py).outcome = .raised .unboundLocalError ∧
      "Tc" ∉ (parse inp py).outputs.map Prod.fst ∧
      ∀ k, (parse inp py).outcome ≠ .exit k := by
  have hpot := ((completeness_ok_iff inp).mp hok).2.2.1
  have hj : strStartsWith "tc" "j" = false := by decide
  have hd : ("tc" : String) ≠ "dos" := by decide
  rw [parse_eq_of_check_ok hok]
  unfold run_blocks
  cases hrp : inp.retrieve_potential with
  | false =>
    simp [potential_block, hrp, results_block, hbasic, structure_block, hmag,
      dos_block, hgo, hd, jij_block, hj, curie_block, Step.andThen, Step.outsOf,
      Step.outcomeOf]
  | true =>
    simp [potential_block, hrp, hpot hrp, results_block, hbasic, structure_block,
      hmag, dos_block, hgo, hd, jij_block, hj, curie_block, Step.andThen,
      Step.outsOf, Step.outcomeOf]

theorem tc_lmd_raises_name_error_witness :
    completeness_check ⟨"go.out", "go.in", false, "tc", "lmd", ["go.out", "go.in"]⟩ = none ∧
    ((parse ⟨"go.out", "go.in", false, "tc", "lmd", ["go.out", "go.in"]⟩
        ⟨false, false, false, false, false, [], false⟩).outcome = .raised .unboundLocalError ∧
      "Tc" ∉ (parse ⟨"go.out", "go.in", false, "tc", "lmd", ["go.out", "go.in"]⟩
          ⟨false, false, false, false, false, [], false⟩).outputs.map Prod.fst ∧
      ∀ k, (parse ⟨"go.out", "go.in", false, "tc", "lmd", ["go.out", "go.in"]⟩
          ⟨false, false, false, false, false, [], false⟩).outcome ≠ .exit k) :=
  ⟨by decide, tc_lmd_raises_name_error _ _ rfl rfl (by decide) rfl⟩

/-- C10: for every run with retrieve_potential set that passes the
completeness check, the potential slot is the first slot attached, before
the transcript is parsed, so it is present in the outputs regardless of how
the rest of the method ends. -/
theorem potential_attached_before_stdout_parse (inp : ParseInput) (py : PyEnv)
    (hr : inp.retrieve_potential = true) (hok : completeness_check inp = none) :
    (parse inp py).outputs.head? = some ("potential", []) ∧
      ("potential", []) ∈ (parse inp py).outputs := by
  have hpot : "pot.dat" ∈ inp.files_retrieved :=
    ((completeness_ok_iff inp).mp hok).2.2.1 hr
  have hpb : potential_block inp ⟨[], false, false⟩ =
      .cont ⟨[("potential", [])], false, false⟩ := by
    simp [potential_block, hr, hpot]
  have hbase : (Step.cont (⟨[("potential", [])], false, false⟩ : St)).Extends
      ⟨[("potential", [])], false, false⟩ [] := ⟨[], by simp [Step.outsOf], by simp⟩
  have hchain := extends_andThen (extends_andThen (extends_andThen (extends_andThen
    (extends_andThen (extends_andThen hbase (results_block_extends py))
      (structure_block_extends inp py)) (dos_block_extends inp py))
      (jij_block_extends inp py)) (curie_block_extends inp py)) (spc_block_extends inp)
  obtain ⟨t, ht, -⟩ := hchain
  rw [parse_eq_of_check_ok hok]
  unfold run_blocks
  rw [hpb]
  dsimp only
  rw [show ((⟨[("potential", [])], false, false⟩ : St).outs = [("potential", [])]) from rfl,
    List.singleton_append] at ht
  rw [ht]
  exact ⟨rfl, List.mem_cons_self _ _⟩

theorem potential_attached_before_stdout_parse_witness :
    completeness_check ⟨"go.out", "go.in", true, "go", "mag",
        ["go.out", "go.in", "pot.dat"]⟩ = none ∧
    ((parse ⟨"go.out", "go.in", true, "go", "mag", ["go.out", "go.in", "pot.dat"]⟩
        ⟨true, false, false, false, false, [], false⟩).outputs.head? =
        some ("potential", []) ∧
      ("potential", []) ∈ (parse ⟨"go.out", "go.in", true, "go", "mag",
          ["go.out", "go.in", "pot.dat"]⟩
        ⟨true, false, false, false, false, [], false⟩).outputs) :=
  ⟨by decide, potential_attached_before_stdout_parse _ _ rfl (by decide)⟩

end AkaiKKR
